import Mathlib

/-!
Verification development for the quilkin UDP proxy core: a shallow embedding
of `src/server.rs` (UDP server loop, session registry, per-datagram fan-out)
and `src/filters/capture.rs` (the Capture filter), together with proofs of
the specification's claims about them.

Byte buffers (`Vec<u8>`) are embedded as `List Nat` (each element `< 256` is
irrelevant to the claims proved). Socket addresses are embedded as an opaque
pair of numbers with decidable equality. The metrics handle is embedded as
the value of its only counter used here, `packets_dropped_total : Nat`,
threaded explicitly.
-/

/-- Socket address: embeds `std::net::SocketAddr` (only equality and
hashing are used by the code under verification). -/
structure Addr where
  ip : Nat
  port : Nat
deriving DecidableEq, Repr

/-- Embeds the metadata `Value` enum used by the Capture filter:
`Bytes`, `String`, `Bool` variants. -/
inductive MValue where
  | bytes (b : List Nat)
  | str (s : String)
  | bool (b : Bool)
deriving DecidableEq, Repr

/-- Embeds `ReadContext`: endpoints snapshot, source address, payload
buffer (`contents`) and per-datagram metadata map. The metadata map embeds
a `HashMap` as an association list where `insert` conses in front and
lookup takes the first hit, which is observationally the map's behaviour. -/
structure ReadContext where
  endpoints : List Addr
  source : Addr
  contents : List Nat
  metadata : List (String × MValue)
deriving DecidableEq, Repr

/-- A capture strategy, as the `CaptureStrategy` trait object in
`capture.rs`: given the payload contents and the current value of
`packets_dropped_total`, return the optionally captured value, the
(possibly mutated) contents and the new counter value. -/
def StrategyFn : Type :=
  List Nat → Nat → Option MValue × List Nat × Nat

/-- Embeds the two interned keys built in `Capture::new`:
`metadata_key` from the configuration and
`is_present_key = metadata_key + "/is_present"`. -/
structure CaptureKeys where
  metadata_key : String
deriving DecidableEq, Repr

/-- The `is_present` key as computed in `Capture::new`. -/
def CaptureKeys.isPresentKey (k : CaptureKeys) : String :=
  k.metadata_key ++ "/is_present"

/-- Embeds `Capture::read` (capture.rs lines 66-77): run the strategy on
`ctx.contents`, always insert `is_present_key → Bool(capture.is_some())`,
then on `Some value` insert `metadata_key → value` and return the context
(`Accept`); on `None` return `none` (`Drop`). The dropped-packet counter is
threaded through the strategy and returned alongside. -/
def captureRead (strat : StrategyFn) (keys : CaptureKeys) (ctx : ReadContext)
    (dropped : Nat) : Option ReadContext × Nat :=
  let r := strat ctx.contents dropped
  let capture := r.1
  let ctx := { ctx with
    contents := r.2.1,
    metadata := (keys.isPresentKey, MValue.bool capture.isSome) :: ctx.metadata }
  match capture with
  | some value =>
      (some { ctx with metadata := (keys.metadata_key, value) :: ctx.metadata },
       r.2.2)
  | none => (none, r.2.2)

/-- Modelled from the spec: the `Suffix` strategy of `affix.rs`, a file of
this repository that is not under `src/` (only its trait, tests and the
spec describe it). Spec 4.1: if `payload.len() < size`, increment
`packets_dropped_total` and return `None`; otherwise the token is
`payload[payload.len()-size ..]`; if `remove`, truncate the payload to drop
the last `size` bytes; return `Some(Bytes(token))`. -/
def suffixCapture (size : Nat) (remove : Bool) : StrategyFn :=
  fun contents dropped =>
    if contents.length < size then
      (none, contents, dropped + 1)
    else
      let token := contents.drop (contents.length - size)
      let contents' := if remove then contents.take (contents.length - size)
                       else contents
      (some (MValue.bytes token), contents', dropped)

/-- Modelled from the spec: the `Prefix` strategy of `affix.rs`, a file of
this repository that is not under `src/`. Spec 4.1: if
`payload.len() < size`, increment `packets_dropped_total` and return
`None`; otherwise the token is `payload[0..size]`; if `remove`, the payload
becomes `payload[size..]`; return `Some(Bytes(token))`. -/
def prefixCapture (size : Nat) (remove : Bool) : StrategyFn :=
  fun contents dropped =>
    if contents.length < size then
      (none, contents, dropped + 1)
    else
      let token := contents.take size
      let contents' := if remove then contents.drop size else contents
      (some (MValue.bytes token), contents', dropped)

/-- Modelled from the spec: the `Regex` strategy of `regex.rs`, a file of
this repository that is not under `src/`. Spec 4.1: find the first match in
the payload; on no match increment `packets_dropped_total` and return
`None`; otherwise return `Some(Bytes(match_bytes))`; the payload is never
mutated. The regex engine itself is external; it is abstracted as the
first-match function `find`. -/
def regexCapture (find : List Nat → Option (List Nat)) : StrategyFn :=
  fun contents dropped =>
    match find contents with
    | some m => (some (MValue.bytes m), contents, dropped)
    | none => (none, contents, dropped + 1)

/-- The string payload "helloabc" of the capture tests, as bytes. -/
def helloabcBytes : List Nat := [104, 101, 108, 108, 111, 97, 98, 99]

/-- The string payload "hello", as bytes. -/
def helloBytes : List Nat := [104, 101, 108, 108, 111]

/-- The string payload "abc", as bytes. -/
def abcBytes : List Nat := [97, 98, 99]

example :
    suffixCapture 3 false helloabcBytes 0
      = (some (MValue.bytes abcBytes), helloabcBytes, 0) := by decide

example :
    suffixCapture 3 true helloabcBytes 0
      = (some (MValue.bytes abcBytes), helloBytes, 0) := by decide

example :
    prefixCapture 3 true (abcBytes ++ helloBytes) 0
      = (some (MValue.bytes abcBytes), helloBytes, 0) := by decide

example : suffixCapture 99 true abcBytes 0 = (none, abcBytes, 1) := by decide

/-! ## Embedding of `src/server.rs` -/

/-- A continuation byte of a UTF-8 sequence: `0x80..=0xBF`. -/
def isCont (b : Nat) : Bool := 0x80 ≤ b && b ≤ 0xBF

/-- UTF-8 validity of a byte string, as checked by `std::str::from_utf8`
(the standard UTF-8 well-formedness predicate: ASCII, 2-byte `C2..DF`,
3-byte `E0/E1..EC/ED/EE..EF` with the surrogate and overlong ranges
excluded, 4-byte `F0/F1..F3/F4` capped at `U+10FFFF`). -/
def validUtf8 : List Nat → Bool
  | [] => true
  | b :: rest =>
    if b ≤ 0x7F then validUtf8 rest
    else if b < 0xC2 then false
    else if b ≤ 0xDF then
      match rest with
      | c1 :: r => isCont c1 && validUtf8 r
      | [] => false
    else if b = 0xE0 then
      match rest with
      | c1 :: c2 :: r => (0xA0 ≤ c1 && c1 ≤ 0xBF) && isCont c2 && validUtf8 r
      | _ => false
    else if b = 0xED then
      match rest with
      | c1 :: c2 :: r => (0x80 ≤ c1 && c1 ≤ 0x9F) && isCont c2 && validUtf8 r
      | _ => false
    else if b ≤ 0xEF then
      match rest with
      | c1 :: c2 :: r => isCont c1 && isCont c2 && validUtf8 r
      | _ => false
    else if b = 0xF0 then
      match rest with
      | c1 :: c2 :: c3 :: r =>
          (0x90 ≤ c1 && c1 ≤ 0xBF) && isCont c2 && isCont c3 && validUtf8 r
      | _ => false
    else if b ≤ 0xF3 then
      match rest with
      | c1 :: c2 :: c3 :: r => isCont c1 && isCont c2 && isCont c3 && validUtf8 r
      | _ => false
    else if b = 0xF4 then
      match rest with
      | c1 :: c2 :: c3 :: r =>
          (0x80 ≤ c1 && c1 ≤ 0x8F) && isCont c2 && isCont c3 && validUtf8 r
      | _ => false
    else false

example : validUtf8 helloabcBytes = true := by decide
example : validUtf8 [0xFF] = false := by decide
example : validUtf8 [0xC3, 0xA9] = true := by decide

/-- The session-registry key type: `(from, destination)` address pair. -/
abbrev AddrPair := Addr × Addr

/-- Embeds the `SessionMap` hash map of `server.rs` line 31 as an
association list; a `Session` is represented by a numeric identity (the
claims only concern which sessions exist, not their socket halves). -/
abbrev Registry := List (AddrPair × Nat)

/-- Key membership in the registry (`HashMap::contains_key`). -/
def containsKey (m : Registry) (k : AddrPair) : Bool :=
  m.any (fun e => e.1 = k)

/-- Key lookup in the registry (`HashMap::get`). -/
def lookupKV : Registry → AddrPair → Option Nat
  | [], _ => none
  | e :: rest, k => if e.1 = k then some e.2 else lookupKV rest k

/-- Insertion with replacement (`HashMap::insert`): an existing entry
under the key is overwritten, otherwise a new entry is added. -/
def insertKV (m : Registry) (k : AddrPair) (v : Nat) : Registry :=
  if containsKey m k then m.map (fun e => if e.1 = k then (k, v) else e)
  else (k, v) :: m

/-- Embeds `Server::ensure_session` (server.rs lines 168-187) run in
isolation: return early if the pair is already present; otherwise
construct a `Session` — `bindOk` stands for whether the ephemeral-socket
bind inside `Session::new` succeeds, the `?` on failure propagating as
`Err` — and insert it under the pair. `nextId` supplies the identity of a
newly created session. -/
def ensure_session (sessions : Registry) (src dst : Addr) (bindOk : Bool)
    (nextId : Nat) : Except Unit (Registry × Nat) :=
  if containsKey sessions (src, dst) then .ok (sessions, nextId)
  else if bindOk then .ok (insertKV sessions (src, dst) nextId, nextId + 1)
  else .error ()

/-- The ways the per-datagram fan-out task of `process_receive_socket` can
panic: the `from_utf8(packet).unwrap()` in the debug log (line 95), and
the `map.get(&(recv_addr, *dest)).unwrap()` on a missing session entry
(line 112, reachable when `ensure_session` failed and was only logged). -/
inductive PanicKind where
  | utf8Unwrap
  | missingSession
deriving DecidableEq, Repr

/-- Embeds one `ensure_session` call as made by the fan-out task
(server.rs lines 99-109): its `Err` is only logged, so execution
continues with the registry unchanged on failure. -/
def ensureStep (reg : Registry) (src dst : Addr) (bindOk : Bool)
    (nextId : Nat) : Registry × Nat :=
  match ensure_session reg src dst bindOk nextId with
  | .ok rn => rn
  | .error _ => (reg, nextId)

/-- Embeds the per-endpoint body around `ensureStep`: after the (possibly
failed and merely logged) `ensure_session`, the task does
`map.get(&(recv_addr, *dest)).unwrap()` — a panic if the entry is missing
— then `session.send_to(packet)` whose `Err` is logged and the loop
continues. Returns the final registry, the next session identity, and the
list of `(destination, bytes)` arguments passed to `send_to`. -/
def fanOutLoop (src : Addr) (packet : List Nat) (bindOk : Addr → Bool) :
    List Addr → Registry → Nat →
    Except PanicKind (Registry × Nat × List (Addr × List Nat))
  | [], reg, nextId => .ok (reg, nextId, [])
  | dst :: rest, reg, nextId =>
    let rn := ensureStep reg src dst (bindOk dst) nextId
    match lookupKV rn.1 (src, dst) with
    | none => .error .missingSession
    | some _ =>
      match fanOutLoop src packet bindOk rest rn.1 rn.2 with
      | .ok (r, n, sends) => .ok (r, n, (dst, packet) :: sends)
      | .error e => .error e

/-- Embeds the whole spawned fan-out task of `process_receive_socket`
(server.rs lines 87-117): first the debug log evaluates
`from_utf8(packet).unwrap()`, which panics on a payload that is not valid
UTF-8; then the endpoint loop runs. An `Except.error` value marks a panic
aborting the task. -/
def processDatagram (src : Addr) (packet : List Nat) (endpoints : List Addr)
    (bindOk : Addr → Bool) (reg : Registry) (nextId : Nat) :
    Except PanicKind (Registry × Nat × List (Addr × List Nat)) :=
  if validUtf8 packet then fanOutLoop src packet bindOk endpoints reg nextId
  else .error .utf8Unwrap

/-! ## Interleaving model of concurrent `ensure_session` calls

`ensure_session` takes the registry's reader-writer lock twice: a shared
lock for the containment check (lines 175-180), released before
`Session::new` binds a socket and spawns the session's background receive
task, and an exclusive lock for the insertion (lines 182-185). A
concurrent execution is modelled as an interleaving of per-call atomic
steps: step one is the check under the shared lock; step two is
`Session::new` (which makes a new session live by spawning its background
task) followed by the insertion under the exclusive lock. Nothing in
`server.rs` ever removes a registry entry or stops a session's background
task, so a session once live stays live. -/

/-- One in-flight `ensure_session` call: its address pair and its program
counter (0 = before the shared-lock check, 1 = check passed and about to
create-and-insert, 2 = returned). -/
structure EnsureTask where
  pair : AddrPair
  pc : Nat
deriving DecidableEq, Repr

/-- The shared state: the session registry, the multiset of live sessions
(each a pair with the identity handed out at creation), and the next
fresh identity. -/
structure ServerState where
  registry : Registry
  live : List (AddrPair × Nat)
  nextId : Nat
deriving DecidableEq, Repr

/-- The state at server startup: empty registry, no sessions. -/
def initialState : ServerState := ⟨[], [], 0⟩

/-- One atomic step of an in-flight `ensure_session` call. At pc 0 the
shared-lock check either returns early (entry present) or proceeds; at
pc 1 `Session::new` spawns a live session and the exclusive-lock insert
stores it (overwriting any entry a racing call inserted in between — the
overwritten session stays live, its background task is never stopped). -/
def stepTask (s : ServerState) (t : EnsureTask) : ServerState × EnsureTask :=
  if t.pc = 0 then
    if containsKey s.registry t.pair then (s, { t with pc := 2 })
    else (s, { t with pc := 1 })
  else if t.pc = 1 then
    ({ registry := insertKV s.registry t.pair s.nextId,
       live := (t.pair, s.nextId) :: s.live,
       nextId := s.nextId + 1 },
     { t with pc := 2 })
  else (s, t)

/-- One schedule entry: the named task (an out-of-range index is a no-op)
performs its next atomic step against the shared state. -/
def schedStep (st : ServerState × List EnsureTask) (i : Nat) :
    ServerState × List EnsureTask :=
  match st.2[i]? with
  | some t =>
    let r := stepTask st.1 t
    (r.1, st.2.set i r.2)
  | none => st

/-- Run a list of in-flight `ensure_session` calls from the startup state
under a schedule of task indices. -/
def runSched (tasks : List EnsureTask) (sched : List Nat) :
    ServerState × List EnsureTask :=
  sched.foldl schedStep (initialState, tasks)

/-- Number of live sessions recorded for a given address pair. -/
def countKey (l : List (AddrPair × Nat)) (k : AddrPair) : Nat :=
  (l.filter (fun e => e.1 = k)).length

/-- The demonstration address pair used in concrete runs: client
`1.0.0.0:1000`, upstream `2.0.0.0:81`. -/
def pDemo : AddrPair := (⟨1, 1000⟩, ⟨2, 81⟩)

example :
    runSched [⟨pDemo, 0⟩, ⟨pDemo, 0⟩] [0, 1, 0, 1]
      = (⟨[(pDemo, 1)], [(pDemo, 1), (pDemo, 0)], 2⟩,
         [⟨pDemo, 2⟩, ⟨pDemo, 2⟩]) := by decide

example : countKey (runSched [⟨pDemo, 0⟩, ⟨pDemo, 0⟩] [0, 1, 0, 1]).1.live pDemo
    = 2 := by decide

/-- The read context of the capture tests: one endpoint `127.0.0.1:81`,
source `127.0.0.1:80`, payload "helloabc", empty metadata. -/
def ctx0 : ReadContext :=
  { endpoints := [⟨127, 81⟩], source := ⟨127, 80⟩,
    contents := helloabcBytes, metadata := [] }

/-- The read context of scenario S4: payload "abc", with one pre-existing
metadata entry to observe frame effects. -/
def ctxAbc : ReadContext :=
  { endpoints := [⟨127, 81⟩], source := ⟨127, 80⟩,
    contents := abcBytes, metadata := [("other", MValue.bool false)] }

/-- The read context used for frame-effect checks: payload "helloabc" and
one pre-existing metadata entry under an unrelated key. -/
def ctxW : ReadContext :=
  { endpoints := [⟨127, 81⟩], source := ⟨127, 80⟩,
    contents := helloabcBytes, metadata := [("other", MValue.bool false)] }

/-- The expected accepted context for `ctxW` under the suffix strategy of
size 3 with removal and token key "TOKEN". -/
def ctxW' : ReadContext :=
  { endpoints := [⟨127, 81⟩], source := ⟨127, 80⟩,
    contents := helloBytes,
    metadata := [("TOKEN", MValue.bytes abcBytes),
                 ("TOKEN/is_present", MValue.bool true),
                 ("other", MValue.bool false)] }

/-! ## Theorems -/

/-- The `is_present` key differs from the token key: appending the
non-empty literal `"/is_present"` changes the string's length. -/
theorem isPresentKey_ne (k : CaptureKeys) :
    k.isPresentKey ≠ k.metadata_key := by
  intro h
  have hlen := congrArg String.length h
  simp [CaptureKeys.isPresentKey, String.length_append] at hlen
  exact absurd hlen (by decide)

/-! ## Registry lemmas -/

/-- Inserting under a key makes the key present. -/
theorem containsKey_insertKV_self (m : Registry) (k : AddrPair) (v : Nat) :
    containsKey (insertKV m k v) k = true := by
  unfold insertKV
  by_cases h : containsKey m k = true
  · rw [if_pos h]
    simp only [containsKey, List.any_eq_true] at h ⊢
    obtain ⟨e, he, hek⟩ := h
    exact ⟨(k, v), List.mem_map.2 ⟨e, he, by simp at hek; simp [hek]⟩, by simp⟩
  · rw [if_neg h]
    simp [containsKey]

/-- Overwriting an existing entry does not change the key list. -/
theorem keys_insertKV_of_contains (m : Registry) (k : AddrPair) (v : Nat)
    (h : containsKey m k = true) :
    (insertKV m k v).map Prod.fst = m.map Prod.fst := by
  unfold insertKV
  rw [if_pos h, List.map_map]
  apply List.map_congr_left
  intro e _
  by_cases hek : e.1 = k
  · simp [hek]
  · simp [hek]

/-- A key absent from the registry is not among the mapped keys. -/
theorem not_mem_keys_of_not_containsKey (m : Registry) (k : AddrPair)
    (h : containsKey m k = false) : k ∉ m.map Prod.fst := by
  intro hk
  obtain ⟨e, he, hek⟩ := List.mem_map.1 hk
  have ht : containsKey m k = true := by
    simp only [containsKey, List.any_eq_true]
    exact ⟨e, he, by simp [hek]⟩
  rw [ht] at h
  exact Bool.true_eq_false.mp h

/-- Insertion with replacement preserves distinctness of registry keys. -/
theorem nodup_keys_insertKV (m : Registry) (k : AddrPair) (v : Nat)
    (h : (m.map Prod.fst).Nodup) : ((insertKV m k v).map Prod.fst).Nodup := by
  by_cases hc : containsKey m k = true
  · rw [keys_insertKV_of_contains m k v hc]
    exact h
  · unfold insertKV
    rw [if_neg hc]
    simp only [List.map_cons]
    exact List.Nodup.cons
      (not_mem_keys_of_not_containsKey m k (Bool.eq_false_iff.2 hc)) h

/-- One task step preserves distinctness of registry keys. -/
theorem nodup_keys_stepTask (s : ServerState) (t : EnsureTask)
    (h : (s.registry.map Prod.fst).Nodup) :
    ((stepTask s t).1.registry.map Prod.fst).Nodup := by
  unfold stepTask
  by_cases h0 : t.pc = 0
  · by_cases hc : containsKey s.registry t.pair = true <;> simp [h0, hc, h]
  · by_cases h1 : t.pc = 1
    · simp only [h0, h1, if_false, if_true]
      exact nodup_keys_insertKV _ _ _ h
    · simp [h0, h1, h]

/-- One schedule step preserves distinctness of registry keys. -/
theorem nodup_keys_schedStep (st : ServerState × List EnsureTask) (i : Nat)
    (h : (st.1.registry.map Prod.fst).Nodup) :
    ((schedStep st i).1.registry.map Prod.fst).Nodup := by
  unfold schedStep
  cases hg : st.2[i]? with
  | none => simpa [hg] using h
  | some t => simpa [hg] using nodup_keys_stepTask st.1 t h

/-- Folding any schedule preserves distinctness of registry keys. -/
theorem nodup_keys_foldl (sched : List Nat) :
    ∀ st : ServerState × List EnsureTask, (st.1.registry.map Prod.fst).Nodup →
      ((sched.foldl schedStep st).1.registry.map Prod.fst).Nodup := by
  induction sched with
  | nil => intro st h; exact h
  | cons i rest ih =>
    intro st h
    exact ih _ (nodup_keys_schedStep st i h)

/-- Claim C3: for every `ReadContext` passed to Capture's `read`, the key
`metadata_key + "/is_present"` is inserted with the boolean saying whether
the strategy returned `Some`; on `Some v` the token key is additionally
inserted with value `v` and `read` returns `Accept` with the (possibly
mutated) context; on `None`, `read` returns `Drop` (so the token key is
inserted into no escaping context). -/
theorem capture_read_insertions (strat : StrategyFn) (keys : CaptureKeys)
    (ctx : ReadContext) (dropped : Nat) (cap : Option MValue)
    (c' : List Nat) (d' : Nat)
    (h : strat ctx.contents dropped = (cap, c', d')) :
    (∀ v, cap = some v →
      ∃ ctx', captureRead strat keys ctx dropped = (some ctx', d') ∧
        ctx'.metadata.lookup keys.isPresentKey = some (MValue.bool true) ∧
        ctx'.metadata.lookup keys.metadata_key = some v) ∧
    (cap = none → captureRead strat keys ctx dropped = (none, d')) := by
  have hne : (keys.isPresentKey == keys.metadata_key) = false :=
    beq_eq_false_iff_ne.mpr (isPresentKey_ne keys)
  constructor
  · rintro v rfl
    refine ⟨{ ctx with
                contents := c',
                metadata := (keys.metadata_key, v) ::
                            (keys.isPresentKey, MValue.bool true) ::
                            ctx.metadata },
            ?_, ?_, ?_⟩
    · simp [captureRead, h]
    · simp [List.lookup, hne]
    · simp [List.lookup]
  · rintro rfl
    simp [captureRead, h]

/-- Witness for the C3 theorem: the suffix strategy of size 3 with
removal on the payload "helloabc" with token key "TOKEN" (test `read`). -/
theorem capture_read_insertions_witness :
    ∃ ctx', captureRead (suffixCapture 3 true) ⟨"TOKEN"⟩ ctx0 0
        = (some ctx', 0) ∧
      ctx'.metadata.lookup (CaptureKeys.isPresentKey ⟨"TOKEN"⟩)
        = some (MValue.bool true) ∧
      ctx'.metadata.lookup (CaptureKeys.mk "TOKEN").metadata_key
        = some (MValue.bytes abcBytes) :=
  (capture_read_insertions (suffixCapture 3 true) ⟨"TOKEN"⟩ ctx0 0
      (some (MValue.bytes abcBytes)) helloBytes 0 (by decide)).1
    (MValue.bytes abcBytes) rfl

/-- Claim C4: for the Suffix strategy with parameters `size` and `remove`
and every payload of length at least `size`, the strategy captures
`Bytes t` where `t` is the last `size` bytes of the payload (pinned down
by `t.length = size` and `p.take (p.length - size) ++ t = p`); the payload
is left equal to `p` when `remove` is false, and equal to `p` with its
last `size` bytes removed when `remove` is true. The counter is
untouched. -/
theorem suffix_capture_spec (size : Nat) (remove : Bool) (p : List Nat)
    (dropped : Nat) (h : size ≤ p.length) :
    ∃ t, suffixCapture size remove p dropped
        = (some (MValue.bytes t),
           if remove then p.take (p.length - size) else p, dropped) ∧
      t.length = size ∧ p.take (p.length - size) ++ t = p := by
  refine ⟨p.drop (p.length - size), ?_, ?_, List.take_append_drop _ p⟩
  · simp [suffixCapture, Nat.not_lt.2 h]
  · rw [List.length_drop]
    omega

/-- Witness for the C4 theorem: payload "helloabc", size 3, removal on
(the `end_capture` test). -/
theorem suffix_capture_spec_witness :
    3 ≤ helloabcBytes.length ∧
    (∃ t, suffixCapture 3 true helloabcBytes 0
        = (some (MValue.bytes t),
           if (true : Bool) then helloabcBytes.take (helloabcBytes.length - 3)
           else helloabcBytes, 0) ∧
      t.length = 3 ∧
      helloabcBytes.take (helloabcBytes.length - 3) ++ t = helloabcBytes) :=
  ⟨by decide, suffix_capture_spec 3 true helloabcBytes 0 (by decide)⟩

/-- Claim C5: for the Prefix strategy with parameters `size` and `remove`
and every payload of length at least `size`, the strategy captures
`Bytes t` where `t` is the first `size` bytes of the payload (pinned down
by `t.length = size` and `t ++ p.drop size = p`); the payload is left
equal to `p` when `remove` is false, and equal to `p` with its first
`size` bytes removed (the rest shifted to the front) when `remove` is
true. The counter is untouched. -/
theorem prefix_capture_spec (size : Nat) (remove : Bool) (p : List Nat)
    (dropped : Nat) (h : size ≤ p.length) :
    ∃ t, prefixCapture size remove p dropped
        = (some (MValue.bytes t),
           if remove then p.drop size else p, dropped) ∧
      t.length = size ∧ t ++ p.drop size = p := by
  refine ⟨p.take size, ?_, ?_, List.take_append_drop _ p⟩
  · simp [prefixCapture, Nat.not_lt.2 h]
  · rw [List.length_take]
    omega

/-- Witness for the C5 theorem: payload "abchello", size 3, removal on
(the `beginning_capture` test). -/
theorem prefix_capture_spec_witness :
    3 ≤ (abcBytes ++ helloBytes).length ∧
    (∃ t, prefixCapture 3 true (abcBytes ++ helloBytes) 0
        = (some (MValue.bytes t),
           if (true : Bool) then (abcBytes ++ helloBytes).drop 3
           else abcBytes ++ helloBytes, 0) ∧
      t.length = 3 ∧ t ++ (abcBytes ++ helloBytes).drop 3
        = abcBytes ++ helloBytes) :=
  ⟨by decide, prefix_capture_spec 3 true (abcBytes ++ helloBytes) 0 (by decide)⟩

/-- Claim C6: for either affix strategy and a payload strictly shorter
than `size`, the strategy returns `None` with the payload unchanged and
`packets_dropped_total` incremented by exactly 1, and Capture's `read`
returns `Drop` (so no context escapes — in the source's `None` branch no
insertion under the token key is performed, and the context holding the
`is_present` entry is discarded). -/
theorem undersized_payload_drop (size : Nat) (remove : Bool)
    (keys : CaptureKeys) (ctx : ReadContext) (dropped : Nat)
    (h : ctx.contents.length < size) :
    suffixCapture size remove ctx.contents dropped
      = (none, ctx.contents, dropped + 1) ∧
    prefixCapture size remove ctx.contents dropped
      = (none, ctx.contents, dropped + 1) ∧
    captureRead (suffixCapture size remove) keys ctx dropped
      = (none, dropped + 1) ∧
    captureRead (prefixCapture size remove) keys ctx dropped
      = (none, dropped + 1) := by
  have hs : suffixCapture size remove ctx.contents dropped
      = (none, ctx.contents, dropped + 1) := by
    simp [suffixCapture, h]
  have hp : prefixCapture size remove ctx.contents dropped
      = (none, ctx.contents, dropped + 1) := by
    simp [prefixCapture, h]
  exact ⟨hs, hp, by simp [captureRead, hs], by simp [captureRead, hp]⟩

/-- Witness for the C6 theorem: scenario S4 — suffix of size 99 with
removal on the 3-byte payload "abc", starting from a zero counter. -/
theorem undersized_payload_drop_witness :
    ctxAbc.contents.length < 99 ∧
    suffixCapture 99 true ctxAbc.contents 0 = (none, ctxAbc.contents, 1) ∧
    captureRead (suffixCapture 99 true) ⟨"TOKEN"⟩ ctxAbc 0 = (none, 1) := by
  have h := undersized_payload_drop 99 true ⟨"TOKEN"⟩ ctxAbc 0 (by decide)
  exact ⟨by decide, h.1, h.2.2.1⟩

/-- Claim C7: invoking the Regex strategy leaves the payload buffer
unchanged, whether or not the pattern matches (for every first-match
function and every payload). -/
theorem regex_capture_no_mutation (find : List Nat → Option (List Nat))
    (contents : List Nat) (dropped : Nat) :
    (regexCapture find contents dropped).2.1 = contents := by
  unfold regexCapture
  cases find contents <;> rfl

/-- Claim C10: when Capture's `read` returns `Accept`, it has modified at
most the payload buffer and the two metadata keys: the endpoints snapshot
and the source address are unchanged, and every metadata key other than
`metadata_key` and `metadata_key + "/is_present"` still looks up to its
old value. -/
theorem capture_read_frame (strat : StrategyFn) (keys : CaptureKeys)
    (ctx : ReadContext) (dropped : Nat) (ctx' : ReadContext) (d' : Nat)
    (h : captureRead strat keys ctx dropped = (some ctx', d')) :
    ctx'.endpoints = ctx.endpoints ∧ ctx'.source = ctx.source ∧
    ∀ k, k ≠ keys.metadata_key → k ≠ keys.isPresentKey →
      ctx'.metadata.lookup k = ctx.metadata.lookup k := by
  simp only [captureRead] at h
  cases hstrat : strat ctx.contents dropped with
  | mk cap cd =>
    rw [hstrat] at h
    cases cap with
    | none => simp at h
    | some v =>
      simp only [Option.isSome_some] at h
      have h1 := congrArg Prod.fst h
      simp only [Option.some.injEq] at h1
      subst h1
      refine ⟨rfl, rfl, ?_⟩
      intro k hk1 hk2
      have b1 : (k == keys.metadata_key) = false := beq_eq_false_iff_ne.mpr hk1
      have b2 : (k == keys.isPresentKey) = false := beq_eq_false_iff_ne.mpr hk2
      simp [List.lookup, b1, b2]

/-- Witness for the C10 theorem: the suffix strategy of size 3 with
removal on `ctxW`, which carries a metadata entry under the unrelated key
"other"; that entry, the endpoints and the source are unchanged. -/
theorem capture_read_frame_witness :
    ctxW'.endpoints = ctxW.endpoints ∧ ctxW'.source = ctxW.source ∧
    ctxW'.metadata.lookup "other" = ctxW.metadata.lookup "other" := by
  have h := capture_read_frame (suffixCapture 3 true) ⟨"TOKEN"⟩ ctxW 0 ctxW' 0
    (by decide)
  exact ⟨h.1, h.2.1, h.2.2 "other" (by decide) (by decide)⟩

/-- Claim C1 (refuting evaluation): the per-datagram fan-out task of
`process_receive_socket` panics rather than completing or logging. For the
one-byte payload `0xFF` — not valid UTF-8 — the debug log's
`from_utf8(packet).unwrap()` (server.rs line 95) panics, so the datagram
is never forwarded; and when session creation fails (socket bind error),
the subsequent `map.get(&(recv_addr, *dest)).unwrap()` (line 112) panics
even on an ASCII payload. -/
theorem fan_out_task_panics :
    processDatagram ⟨127, 80⟩ [0xFF] [⟨127, 81⟩] (fun _ => true) [] 0
      = .error .utf8Unwrap ∧
    processDatagram ⟨127, 80⟩ [104] [⟨127, 81⟩] (fun _ => false) [] 0
      = .error .missingSession :=
  ⟨rfl, rfl⟩

/-- Claim C2 (counterexample): the forward path of `server.rs` passes the
raw received bytes to `session.send_to`, not the filter chain's output.
With payload "helloabc" the fan-out task sends "helloabc" to the
endpoint, while the Capture filter (suffix, size 3, removal) — the filter
chain of the spec's data-flow sentence — maps that payload to "hello". -/
theorem server_bypasses_filter_chain :
    processDatagram ⟨127, 80⟩ helloabcBytes [⟨127, 81⟩] (fun _ => true) [] 0
      = .ok ([((⟨127, 80⟩, ⟨127, 81⟩), 0)], 1, [(⟨127, 81⟩, helloabcBytes)]) ∧
    (captureRead (suffixCapture 3 true) ⟨"TOKEN"⟩ ctx0 0).1.map
        ReadContext.contents = some helloBytes ∧
    helloabcBytes ≠ helloBytes := by
  exact ⟨rfl, by decide, by decide⟩

/-- Every `send_to` recorded by the endpoint loop carries the raw packet
bytes. -/
theorem fanOutLoop_sends_raw (src : Addr) (packet : List Nat)
    (bindOk : Addr → Bool) :
    ∀ (endpoints : List Addr) (reg : Registry) (nextId : Nat)
      (r : Registry) (n : Nat) (sends : List (Addr × List Nat)),
      fanOutLoop src packet bindOk endpoints reg nextId = .ok (r, n, sends) →
      ∀ e ∈ sends, e.2 = packet := by
  intro endpoints
  induction endpoints with
  | nil =>
    intro reg nextId r n sends h e he
    simp only [fanOutLoop, Except.ok.injEq, Prod.mk.injEq] at h
    obtain ⟨-, -, h3⟩ := h
    rw [← h3] at he
    simp at he
  | cons dst rest ih =>
    intro reg nextId r n sends h e he
    simp only [fanOutLoop] at h
    cases hl : lookupKV (ensureStep reg src dst (bindOk dst) nextId).1
        (src, dst) with
    | none => rw [hl] at h; exact absurd h (by simp)
    | some sid =>
      rw [hl] at h
      cases hrec : fanOutLoop src packet bindOk rest
          (ensureStep reg src dst (bindOk dst) nextId).1
          (ensureStep reg src dst (bindOk dst) nextId).2 with
      | error e2 => rw [hrec] at h; exact absurd h (by simp)
      | ok t =>
        rw [hrec] at h
        obtain ⟨r2, n2, sends2⟩ := t
        simp only [Except.ok.injEq, Prod.mk.injEq] at h
        obtain ⟨-, -, h3⟩ := h
        rw [← h3] at he
        rcases List.mem_cons.1 he with he | he
        · rw [he]
        · exact ih _ _ _ _ _ hrec e he

/-- Claim C2 (amended): whenever the fan-out task of
`process_receive_socket` completes without panicking, the bytes it passed
to `session.send_to` for every endpoint are exactly the raw received
payload — no filter chain is applied on the forward path. -/
theorem process_datagram_sends_raw (src : Addr) (packet : List Nat)
    (endpoints : List Addr) (bindOk : Addr → Bool) (reg : Registry)
    (nextId : Nat) (r : Registry) (n : Nat)
    (sends : List (Addr × List Nat))
    (h : processDatagram src packet endpoints bindOk reg nextId
          = .ok (r, n, sends)) :
    ∀ e ∈ sends, e.2 = packet := by
  unfold processDatagram at h
  by_cases hv : validUtf8 packet
  · rw [if_pos hv] at h
    exact fanOutLoop_sends_raw src packet bindOk endpoints reg nextId r n
      sends h
  · rw [if_neg hv] at h
    exact absurd h (by simp)

/-- Witness for the amended C2 theorem: the concrete run of the fan-out
task on payload "helloabc" with one endpoint; the single recorded send
carries the raw payload. -/
theorem process_datagram_sends_raw_witness :
    processDatagram ⟨127, 80⟩ helloabcBytes [⟨127, 81⟩] (fun _ => true) [] 0
      = .ok ([((⟨127, 80⟩, ⟨127, 81⟩), 0)], 1,
             [(⟨127, 81⟩, helloabcBytes)]) ∧
    ((⟨127, 81⟩, helloabcBytes) : Addr × List Nat).2 = helloabcBytes :=
  ⟨rfl,
   process_datagram_sends_raw ⟨127, 80⟩ helloabcBytes [⟨127, 81⟩]
     (fun _ => true) [] 0 [((⟨127, 80⟩, ⟨127, 81⟩), 0)] 1
     [(⟨127, 81⟩, helloabcBytes)] rfl (⟨127, 81⟩, helloabcBytes)
     (by decide)⟩

/-- Claim C8 (counterexample): under the concrete interleaving in which
two concurrent `ensure_session` calls for the same pair both pass the
shared-lock check before either inserts, two sessions for the pair are
live at once (the overwritten one's background task is never stopped);
hence the claim "at most one live Session exists per pair at any moment,
including under interleaved concurrent calls" is false. -/
theorem ensure_session_race :
    countKey (runSched [⟨pDemo, 0⟩, ⟨pDemo, 0⟩] [0, 1, 0, 1]).1.live pDemo
      = 2 ∧
    ¬ (∀ (tasks : List EnsureTask) (sched : List Nat),
        countKey (runSched tasks sched).1.live pDemo ≤ 1) :=
  ⟨by decide,
   fun h => absurd (h [⟨pDemo, 0⟩, ⟨pDemo, 0⟩] [0, 1, 0, 1]) (by decide)⟩

/-- Claim C8 (amended): after any sequence of `ensure_session` calls,
including interleaved concurrent ones, the session registry contains at
most one entry per `(client, upstream)` pair — its key list is duplicate
free at every moment of every schedule. (The live-session half of the
original claim fails: a racing pair of calls can leave two live sessions
for one pair, the earlier one abandoned but never stopped.) -/
theorem registry_keys_nodup (tasks : List EnsureTask) (sched : List Nat) :
    ((runSched tasks sched).1.registry.map Prod.fst).Nodup :=
  nodup_keys_foldl sched (initialState, tasks) (by simp [initialState])

/-- Claim C9: whenever `ensure_session` returns `Ok`, the registry it
leaves behind contains an entry under the `(from, dest)` key — either the
entry already existed at the shared-lock check and the registry is
unchanged, or the newly constructed session was inserted under that key
before returning. -/
theorem ensure_session_ensures (s : Registry) (a b : Addr) (bindOk : Bool)
    (n : Nat) (s' : Registry) (n' : Nat)
    (h : ensure_session s a b bindOk n = .ok (s', n')) :
    containsKey s' (a, b) = true ∧
    ((containsKey s (a, b) = true ∧ s' = s) ∨
     (containsKey s (a, b) = false ∧ s' = insertKV s (a, b) n)) := by
  unfold ensure_session at h
  by_cases hc : containsKey s (a, b) = true
  · rw [if_pos hc] at h
    simp only [Except.ok.injEq, Prod.mk.injEq] at h
    obtain ⟨h1, -⟩ := h
    subst h1
    exact ⟨hc, Or.inl ⟨hc, rfl⟩⟩
  · rw [if_neg hc] at h
    cases bindOk with
    | false => simp at h
    | true =>
      rw [if_pos rfl] at h
      simp only [Except.ok.injEq, Prod.mk.injEq] at h
      obtain ⟨h1, -⟩ := h
      subst h1
      exact ⟨containsKey_insertKV_self s (a, b) n,
             Or.inr ⟨Bool.eq_false_iff.2 hc, rfl⟩⟩

/-- Witness for the C9 theorem: a successful `ensure_session` on an empty
registry for the pair `(127.0.0.1:80, 127.0.0.1:81)` leaves an entry under
that pair. -/
theorem ensure_session_ensures_witness :
    ensure_session [] ⟨127, 80⟩ ⟨127, 81⟩ true 0
      = .ok ([((⟨127, 80⟩, ⟨127, 81⟩), 0)], 1) ∧
    containsKey [((⟨127, 80⟩, ⟨127, 81⟩), 0)] (⟨127, 80⟩, ⟨127, 81⟩)
      = true :=
  ⟨rfl,
   (ensure_session_ensures [] ⟨127, 80⟩ ⟨127, 81⟩ true 0
     [((⟨127, 80⟩, ⟨127, 81⟩), 0)] 1 rfl).1⟩
